import Mathlib

/-!
# Verification of `extract_transcript.py`

A shallow embedding of the Apple-podcast TTML transcript extractor
(`src/extract_transcript.py`) together with proofs about the claims of
its specification.

Modelling conventions:
* XML `Element` objects (from `xml.etree.ElementTree`) are modelled by the
  inductive type `Elem`: an element carries its tag (the *local* name,
  since every match in the program uses the namespace-ignoring `{*}`
  pattern), its attribute list, its leading text (`.text`), its trailing
  text (`.tail`), and its children in document order.  As in
  `ElementTree`, absent text/tail is `none`.
* Python strings are Lean `String`s; `str.strip()` is `pyStrip` (removing
  the ASCII whitespace characters Python strips).
* Python `float` values are modelled by `ℚ`; `float(s)` string conversion
  is `pyFloat`, which implements the grammar of finite decimal literals
  accepted by Python's `float` constructor (optional surrounding
  whitespace, optional sign, digits with optional fractional part and
  optional exponent).  The `inf`/`nan` spellings and digit-group
  underscores, which no part of the program or its spec relies on, are
  not modelled.
* File-system and console effects are reified as data (`ExtractResult`,
  `Effect`); the outcome of `open`/`ET.fromstring` on a given file is an
  input to the model (`Option (Option Elem)`), since the XML text parser
  and the OS are external to the repository.
-/

set_option maxHeartbeats 1000000

/-- An XML element as produced by `xml.etree.ElementTree`: tag (local
name), attributes, leading text, trailing text (tail), children. -/
inductive Elem : Type where
  | mk (tag : String) (attrib : List (String × String)) (text : Option String)
      (tail : Option String) (children : List Elem) : Elem

def Elem.tag : Elem → String
  | .mk t _ _ _ _ => t

def Elem.attrib : Elem → List (String × String)
  | .mk _ a _ _ _ => a

def Elem.text : Elem → Option String
  | .mk _ _ x _ _ => x

def Elem.tail : Elem → Option String
  | .mk _ _ _ x _ => x

def Elem.children : Elem → List Elem
  | .mk _ _ _ _ c => c

/-- Attribute lookup, `element.attrib[k]` / `k in element.attrib`. -/
def Elem.getAttr (e : Elem) (k : String) : Option String :=
  e.attrib.lookup k

/-- The ASCII whitespace characters removed by Python's `str.strip()`. -/
def isPySpace (c : Char) : Bool :=
  c = ' ' || c = '\t' || c = '\n' || c = '\r' || c = '\x0b' || c = '\x0c'

def pyStripChars (l : List Char) : List Char :=
  ((l.dropWhile isPySpace).reverse.dropWhile isPySpace).reverse

/-- Model of Python `str.strip()`. -/
def pyStrip (s : String) : String :=
  String.mk (pyStripChars s.data)

/-- Python truthiness of an optional string (`if element.text:`):
`None` and the empty string are falsy. -/
def pyTruthy : Option String → Bool
  | none => false
  | some s => s ≠ ""

/-- The fragment contributed by an optional text field: nothing when the
field is `None` or empty (Python truthiness), the text otherwise. -/
def optFrag (t : Option String) : List String :=
  if pyTruthy t then [t.getD ""] else []

mutual

/-- Source function `extract_text(element)`: collect the element's own
`.text`, then for each child the child's recursively extracted text and
the child's `.tail`, join everything with single spaces, and strip. -/
def extract_text : Elem → String
  | .mk _ _ text _ children =>
      pyStrip (String.intercalate " " (optFrag text ++ childFrags children))

/-- The fragments contributed by a child list in `extract_text`'s loop:
for each child, its extracted text and (when truthy) its tail. -/
def childFrags : List Elem → List String
  | [] => []
  | c :: cs => (extract_text c :: optFrag c.tail) ++ childFrags cs

end

/-! ## Python numeric helpers

Python floats are modelled by `ℚ`.  So that every definition evaluates
inside the kernel (`decide`), the arithmetic on `ℚ` is expressed through
the reducible constructors `Rat.divInt`/`mkRat` and integer operations;
the lemmas `ratMul_eq`, `ratSub_eq`, `ratDiv_eq` identify these with the
ordinary field operations of `ℚ`. -/

/-- Rational multiplication, written reducibly. -/
def ratMul (a b : ℚ) : ℚ :=
  Rat.divInt (a.num * b.num) ((a.den : Int) * (b.den : Int))

/-- Rational subtraction, written reducibly. -/
def ratSub (a b : ℚ) : ℚ :=
  Rat.divInt (a.num * (b.den : Int) - b.num * (a.den : Int)) ((a.den : Int) * (b.den : Int))

/-- Rational division, written reducibly (division by `0` gives `0`,
as for `/` on `ℚ`). -/
def ratDiv (a b : ℚ) : ℚ :=
  Rat.divInt (a.num * (b.den : Int)) ((a.den : Int) * b.num)

/-- The numeric value of a digit string (most significant first). -/
def digitsToNat (l : List Char) : Nat :=
  l.foldl (fun a c => a * 10 + (c.toNat - '0'.toNat)) 0

/-- A character that can occur in a finite Python `float` literal after
the optional leading sign. -/
def floatLitChar (c : Char) : Bool :=
  c.isDigit || c = '.' || c = 'e' || c = 'E' || c = '+' || c = '-'

/-- A signed nonempty digit run that must consume its whole input: the
digits of an exponent after the optional sign. -/
def parseExpDigitRun (sign : Int) (ds : List Char) : Option Int :=
  if !ds.isEmpty && ds.all Char.isDigit then some (sign * digitsToNat ds) else none

/-- The optional exponent suffix of a Python `float` literal: empty, or
`e`/`E`, an optional sign, and a nonempty digit run consuming the rest. -/
def parseExp : List Char → Option Int
  | [] => some 0
  | c :: rest =>
      if c = 'e' || c = 'E' then
        if rest.head? = some '-' then parseExpDigitRun (-1) rest.tail
        else if rest.head? = some '+' then parseExpDigitRun 1 rest.tail
        else parseExpDigitRun 1 rest
      else none

/-- The exact rational value of the decimal literal with integer-part
digits `ip`, fractional-part digits `fp` and decimal exponent `e`:
`(ip.fp) * 10 ^ e`. -/
def decLitVal (ip fp : List Char) (e : Int) : ℚ :=
  let m : Int := ((digitsToNat ip * 10 ^ fp.length + digitsToNat fp : Nat) : Int)
  if 0 ≤ e then Rat.divInt (m * ((10 ^ e.toNat : Nat) : Int)) ((10 ^ fp.length : Nat) : Int)
  else Rat.divInt m (((10 ^ fp.length * 10 ^ (-e).toNat : Nat) : Int))

/-- The unsigned part of a Python `float` literal: a digit run, an
optional `.` with a further digit run (at least one digit in total), and
an optional exponent; the whole input must be consumed. -/
def parseMantissaExp (l : List Char) : Option ℚ :=
  let intPart := l.takeWhile Char.isDigit
  let rest := l.dropWhile Char.isDigit
  if rest.head? = some '.' then
    let rest2 := rest.tail
    let fracPart := rest2.takeWhile Char.isDigit
    let rest3 := rest2.dropWhile Char.isDigit
    if intPart.isEmpty && fracPart.isEmpty then none
    else
      match parseExp rest3 with
      | none => none
      | some e => some (decLitVal intPart fracPart e)
  else
    if intPart.isEmpty then none
    else
      match parseExp rest with
      | none => none
      | some e => some (decLitVal intPart [] e)

/-- Model of Python `float(s)` on finite decimal literals: strip surrounding
whitespace, take an optional sign, then the mantissa/exponent form;
`none` models a raised `ValueError`. -/
def pyFloat (s : String) : Option ℚ :=
  let l := pyStripChars s.data
  if l.head? = some '+' then parseMantissaExp l.tail
  else if l.head? = some '-' then (parseMantissaExp l.tail).map Neg.neg
  else parseMantissaExp l

/-- The `begin`-attribute parsing of `extract_transcript` (source lines
85–88): `float(value)` with a `ValueError` recovered as `0`.  This is the
`parseTimecode` operation of the spec's Timecode Codec. -/
def parseTimecode (s : String) : ℚ :=
  (pyFloat s).getD 0

/-- Python `int()` truncation toward zero of a rational: on a reduced
fraction with positive denominator this is integer T-division of the
numerator by the denominator. -/
def pyInt (q : ℚ) : Int :=
  Int.tdiv q.num (q.den : Int)

/-- Python floor division `a // b` on floats (the result is still a
float): the floor of the exact quotient. -/
def pyFloorDiv (a b : ℚ) : ℚ :=
  (Int.floor (ratDiv a b) : ℚ)

/-- Python modulo `a % b` on floats: `a - b * (a // b)`. -/
def pyMod (a b : ℚ) : ℚ :=
  ratSub a (ratMul b (pyFloorDiv a b))

/-- Model of Python `f"{n:02d}"`: decimal rendering left-padded with `0` to
width 2 (a sign counts toward the width). -/
def pad2Int (n : Int) : String :=
  let s := toString n
  if s.length < 2 then "0" ++ s else s

/-- Source function `format_timestamp(seconds)`:
`int(seconds // 3600)`, `int((seconds % 3600) // 60)`, `int(seconds % 60)`,
each rendered with `{:02d}` and joined with `:`. -/
def format_timestamp (seconds : ℚ) : String :=
  pad2Int (pyInt (pyFloorDiv seconds 3600)) ++ ":" ++
    pad2Int (pyInt (pyFloorDiv (pyMod seconds 3600) 60)) ++ ":" ++
    pad2Int (pyInt (pyMod seconds 60))

/-! ## Transcript builder (`extract_transcript`) -/

mutual

/-- All proper descendants of an element in document order, as produced
by the `.//` step of `ElementTree`'s path engine. -/
def elemDescendants : Elem → List Elem
  | .mk _ _ _ _ children => descList children

/-- Descendant enumeration of a child list: each child followed by its
own descendants, in order. -/
def descList : List Elem → List Elem
  | [] => []
  | c :: cs => (c :: elemDescendants c) ++ descList cs

end

/-- The direct children of `e` whose local tag is `t` (an `{*}t` child
step). -/
def childrenTagged (t : String) (e : Elem) : List Elem :=
  e.children.filter (fun c => c.tag = t)

/-- Model of `root.findall(".//{*}body/{*}div/{*}p")` (source line 71): every
`body` descendant of the root, then the `div` children of those, then
the `p` children of those, in document order. -/
def findParagraphs (root : Elem) : List Elem :=
  (((elemDescendants root).filter (fun e => e.tag = "body")).flatMap
    (childrenTagged "div")).flatMap (childrenTagged "p")

/-- Model of `p.findall("{*}span")` (source line 74): the direct `span` children
of a paragraph. -/
def spanChildren (p : Elem) : List Elem :=
  childrenTagged "span" p

/-- The body of the paragraph loop of `extract_transcript` (source lines
72–92), as the optional transcript line a paragraph produces: `none`
when the paragraph has no `span` children or its combined span text
strips to the empty string. -/
def lineFor (include_timestamps : Bool) (p : Elem) : Option String :=
  let span_elements := spanChildren p
  if span_elements.isEmpty then none
  else
    let paragraph_text :=
      pyStrip (String.join (span_elements.map (fun s => extract_text s ++ " ")))
    if paragraph_text = "" then none
    else if include_timestamps && (p.getAttr "begin").isSome then
      some ("[" ++ format_timestamp (parseTimecode ((p.getAttr "begin").getD "")) ++ "] "
        ++ paragraph_text)
    else some paragraph_text

/-- One iteration of the paragraph loop: append the paragraph's line to
the transcript when it produces one. -/
def appendLine (include_timestamps : Bool) (transcript : List String) (p : Elem) :
    List String :=
  match lineFor include_timestamps p with
  | some line => transcript ++ [line]
  | none => transcript

/-- The paragraph loop itself: successive `transcript.append(...)` calls
starting from the empty list. -/
def buildTranscript (include_timestamps : Bool) (paragraphs : List Elem) : List String :=
  paragraphs.foldl (appendLine include_timestamps) []

/-- The observable outcome of one `extract_transcript` call: the
diagnostic it prints (if any) and the content it writes to the output
path (if it writes at all). -/
structure ExtractResult where
  errorMsg : Option String
  written : Option String
deriving DecidableEq, Repr

/-- Source function `extract_transcript(ttml_content, output_path,
include_timestamps)` (source lines 45–101).  Its input is the outcome of `ET.fromstring` on
the file content: `none` models a `ParseError` (the external XML parser
rejecting ill-formed input), in which case the function prints a
diagnostic and returns without writing; otherwise the transcript lines
are built and their `"\n\n"`-join is written (writing the file is
modelled as succeeding; the OS is external). -/
def extract_transcript (parsed : Option Elem) (include_timestamps : Bool) : ExtractResult :=
  match parsed with
  | none => { errorMsg := some "XML parsing error", written := none }
  | some root =>
      { errorMsg := none
        written := some (String.intercalate "\n\n"
          (buildTranscript include_timestamps (findParagraphs root))) }

/-! ## Driver (`main`) and batch loop -/

/-- The two execution modes of `main`. -/
inductive Mode where
  | singleFile
  | batch
deriving DecidableEq, Repr

/-- The mode-selection condition of `main` (source line 149):
single-file mode exactly when both positional arguments are truthy and
the `--timestamps` flag is NOT set. -/
def selectMode (input_file output_file : Option String) (timestamps : Bool) : Mode :=
  if pyTruthy input_file && pyTruthy output_file && !timestamps then Mode.singleFile
  else Mode.batch

/-- A file located by `find_ttml_files`, together with the outcome of
opening and XML-parsing it: `readResult = none` models an unreadable
file (`open` raising), `some parsed` a successful read whose content
parses to `parsed` (with `parsed = none` for ill-formed XML). -/
structure BatchFile where
  path : String
  id : String
  readResult : Option (Option Elem)

/-- Model of the suffix choice at source line 173. -/
def suffixFor (count : Nat) : String :=
  if count = 0 then "" else "-" ++ toString count

/-- Model of the output-path construction at source line 174, with
`transcripts_dir = "./transcripts"`. -/
def outPathFor (id : String) (count : Nat) : String :=
  "./transcripts/" ++ id ++ suffixFor count ++ ".txt"

/-- Model of the collision-table update at source line 175. -/
def bump (counts : String → Nat) (id : String) : String → Nat :=
  fun k => if k = id then counts id + 1 else counts k

/-- The batch loop of `main` (source lines 169–183).  For each located
file, in discovery order: read the collision count for its id, derive
the output path, increment the count, then read the file — on a read
error continue with the next file, otherwise run `extract_transcript`.
The result pairs each located file's derived output path with the
content written for it (`none` when nothing was written), together with
the final collision table. -/
def processBatch (counts : String → Nat) (include_timestamps : Bool) :
    List BatchFile → List (String × Option String) × (String → Nat)
  | [] => ([], counts)
  | f :: fs =>
      let count := counts f.id
      let output_path := outPathFor f.id count
      let counts2 := bump counts f.id
      let entry : String × Option String :=
        match f.readResult with
        | none => (output_path, none)
        | some parsed => (output_path, (extract_transcript parsed include_timestamps).written)
      let rest := processBatch counts2 include_timestamps fs
      (entry :: rest.1, rest.2)

/-- An observable effect of a program run. -/
inductive Effect where
  | mkdir (dir : String)
  | readF (path : String)
  | writeF (path : String) (content : String)
  | diag (msg : String)
  | exitNonzero
deriving DecidableEq, Repr

/-- The effects of one `extract_transcript` call writing to `outPath`. -/
def extractEffects (parsed : Option Elem) (outPath : String)
    (include_timestamps : Bool) : List Effect :=
  let r := extract_transcript parsed include_timestamps
  match r.errorMsg, r.written with
  | some m, _ => [Effect.diag m]
  | none, some c => [Effect.writeF outPath c]
  | none, none => []

/-- The effects of the batch loop (source lines 169–183), mirroring
`processBatch`: read each located file (reporting and skipping it on a
read error) and run `extract_transcript` on its content. -/
def batchEffects (counts : String → Nat) (include_timestamps : Bool) :
    List BatchFile → List Effect
  | [] => []
  | f :: fs =>
      let output_path := outPathFor f.id (counts f.id)
      let counts2 := bump counts f.id
      (match f.readResult with
       | none => [Effect.readF f.path, Effect.diag ("Error reading " ++ f.path)]
       | some parsed => Effect.readF f.path :: extractEffects parsed output_path include_timestamps)
      ++ batchEffects counts2 include_timestamps fs

/-- Source function `main()` (source lines 129–183) as an effect trace.  Arguments:
the two optional positional CLI arguments and the `--timestamps` flag;
`dirExists` is whether `./transcripts` already exists;
`singleRead` is the outcome of opening/parsing the single-mode input
file; `files` are the located batch files.  The `./transcripts`
directory is created (when absent) before the mode test; single-file
mode reads the input, exits nonzero when the read fails, and otherwise
runs `extract_transcript` on it; batch mode runs the batch loop with an
empty collision table. -/
def mainEffects (input_file output_file : Option String) (timestamps : Bool)
    (dirExists : Bool) (singleRead : Option (Option Elem)) (files : List BatchFile) :
    List Effect :=
  (if dirExists then [] else [Effect.mkdir "./transcripts"]) ++
    (match selectMode input_file output_file timestamps with
     | Mode.singleFile =>
         Effect.readF (input_file.getD "") ::
           (match singleRead with
            | none => [Effect.diag ("Error reading " ++ input_file.getD ""), Effect.exitNonzero]
            | some parsed => extractEffects parsed (output_file.getD "") timestamps)
     | Mode.batch => batchEffects (fun _ => 0) timestamps files)

/-! ## Specification-side definitions

These definitions follow the wording of the specification (not the
source); the claim theorems compare them with the source-side
definitions above. -/

/-- The Transcript Line of the spec (§3, §4.3 steps 3–5), written from
the spec's words: the combined span text of a paragraph is each direct
span's extracted text concatenated with a trailing space, the whole
stripped; an empty combined text yields no line; otherwise the line is
the text, prefixed with a formatted `begin` timestamp when timestamps
are enabled and the attribute is present. -/
def specLine (ts : Bool) (p : Elem) : Option String :=
  let t := pyStrip (String.join ((spanChildren p).map (fun s => extract_text s ++ " ")))
  if t = "" then none
  else if ts && (p.getAttr "begin").isSome then
    some ("[" ++ format_timestamp (parseTimecode ((p.getAttr "begin").getD "")) ++ "] " ++ t)
  else some t

/-- The `formatTimestamp` formula of the spec (§4.1 Format), written
from the spec's words: `h = floor(seconds / 3600)`,
`m = floor((seconds mod 3600) / 60)`, `s = floor(seconds mod 60)`, each
zero-padded to width 2, where `x mod n` is `x - n * floor(x / n)`. -/
def formatTimestampSpec (seconds : ℚ) : String :=
  pad2Int (Int.floor (seconds / 3600)) ++ ":" ++
    pad2Int (Int.floor ((seconds - 3600 * ((Int.floor (seconds / 3600) : Int) : ℚ)) / 60)) ++ ":" ++
    pad2Int (Int.floor (seconds - 60 * ((Int.floor (seconds / 60) : Int) : ℚ)))

/-! ## Concrete documents and batch files used by witnesses and
counterexamples -/

/-- A well-formed document whose root has no `body` descendant. -/
def docNoBody : Elem := Elem.mk "tt" [] none none []

def spanTextA : Elem := Elem.mk "span" [] (some "a") none []

def spanTextB : Elem := Elem.mk "span" [] (some "b") none []

def paraFirst : Elem := Elem.mk "p" [] none none [spanTextA]

def paraSecond : Elem := Elem.mk "p" [] none none [spanTextB]

def divFirst : Elem := Elem.mk "div" [] none none [paraFirst]

def divSecond : Elem := Elem.mk "div" [] none none [paraSecond]

def bodyTwoDivs : Elem := Elem.mk "body" [] none none [divFirst, divSecond]

/-- A document whose `body` has two `div` children, each with one
paragraph of text (`"a"` in the first `div`, `"b"` in the second). -/
def docTwoDivs : Elem := Elem.mk "tt" [] none none [bodyTwoDivs]

/-- A located batch file whose read fails. -/
def fileUnreadable : BatchFile :=
  { path := "/cache/PodcastContentep/a.ttml", id := "ep", readResult := none }

/-- A located batch file that reads fine but holds ill-formed XML. -/
def fileIllFormed : BatchFile :=
  { path := "/cache/PodcastContentep/b.ttml", id := "ep", readResult := some none }

/-! # Theorems -/

/-! ## Bridges between the reducible rational operations and the field
operations of `ℚ` -/

theorem ratMul_eq (a b : ℚ) : ratMul a b = a * b := by
  rw [ratMul, Rat.divInt_eq_div]
  push_cast
  rw [← div_mul_div_comm, Rat.num_div_den, Rat.num_div_den]

theorem ratSub_eq (a b : ℚ) : ratSub a b = a - b := by
  rw [ratSub, Rat.divInt_eq_div]
  push_cast
  rw [sub_div, mul_div_mul_right _ _ (by exact_mod_cast b.den_ne_zero),
    mul_comm ((a.den : ℚ)) ((b.den : ℚ)), mul_div_mul_right _ _ (by exact_mod_cast a.den_ne_zero),
    Rat.num_div_den, Rat.num_div_den]

theorem ratDiv_eq (a b : ℚ) : ratDiv a b = a / b := by
  rw [ratDiv, Rat.divInt_eq_div]
  push_cast
  rw [div_eq_mul_inv a b]
  conv_rhs => rw [← Rat.num_div_den a, ← Rat.num_div_den b]
  rw [inv_div, div_mul_div_comm]

theorem pyFloorDiv_eq (a b : ℚ) : pyFloorDiv a b = ((Int.floor (a / b) : Int) : ℚ) := by
  rw [pyFloorDiv, ratDiv_eq]

theorem pyMod_eq (a b : ℚ) : pyMod a b = a - b * ((Int.floor (a / b) : Int) : ℚ) := by
  rw [pyMod, ratSub_eq, ratMul_eq, pyFloorDiv_eq]

theorem pyInt_intCast (n : Int) : pyInt ((n : Int) : ℚ) = n := by
  rw [pyInt, Rat.num_intCast, Rat.den_intCast]
  exact_mod_cast Int.tdiv_one n

theorem pyInt_eq_floor {q : ℚ} (h : 0 ≤ q) : pyInt q = Int.floor q := by
  rw [pyInt, Rat.floor_def]
  exact Int.tdiv_eq_ediv (Rat.num_nonneg.mpr h) (by positivity)

theorem pyMod_sixty_nonneg (q : ℚ) : 0 ≤ q - 60 * ((Int.floor (q / 60) : Int) : ℚ) := by
  have h : q - 60 * ((Int.floor (q / 60) : Int) : ℚ) = 60 * Int.fract (q / 60) := by
    rw [Int.fract, mul_sub, mul_div_cancel₀ _ (by norm_num : (60 : ℚ) ≠ 0)]
  rw [h]
  exact mul_nonneg (by norm_num) (Int.fract_nonneg _)

/-! ## Transcript-builder lemmas -/

theorem lineFor_eq_specLine (ts : Bool) (p : Elem) : lineFor ts p = specLine ts p := by
  unfold lineFor specLine
  by_cases h : (spanChildren p).isEmpty
  · have he : spanChildren p = [] := List.isEmpty_iff.mp h
    simp [h, he, show String.join [] = "" from rfl, show pyStrip "" = "" from rfl]
  · simp [h]

theorem foldl_appendLine_eq_filterMap (ts : Bool) :
    ∀ (ps : List Elem) (acc : List String),
      ps.foldl (appendLine ts) acc = acc ++ ps.filterMap (lineFor ts) := by
  intro ps
  induction ps with
  | nil => intro acc; simp
  | cons p ps ih =>
      intro acc
      simp only [List.foldl_cons, List.filterMap_cons]
      rw [appendLine]
      cases h : lineFor ts p
      · simp only [ih]
      · rw [ih]
        simp

theorem buildTranscript_eq_filterMap (ts : Bool) (ps : List Elem) :
    buildTranscript ts ps = ps.filterMap (specLine ts) := by
  unfold buildTranscript
  rw [foldl_appendLine_eq_filterMap ts ps []]
  rw [List.nil_append]
  exact List.filterMap_congr (fun p _ => lineFor_eq_specLine ts p)

/-- C5: for a well-formed input, the transcript holds exactly one line
per paragraph whose combined span text is non-empty after trimming
(`specLine` yields `some`), in source-document paragraph order
(`filterMap` preserves order over `findParagraphs`, which enumerates in
document order), joined with exactly two newline characters; paragraphs
with no `span` children or whose text trims to empty contribute
nothing. -/
theorem transcript_is_ordered_filterMap :
    (∀ (ts : Bool) (ps : List Elem), buildTranscript ts ps = ps.filterMap (specLine ts)) ∧
    (∀ (root : Elem) (ts : Bool),
      (extract_transcript (some root) ts).written
        = some (String.intercalate "\n\n" ((findParagraphs root).filterMap (specLine ts)))) := by
  refine ⟨buildTranscript_eq_filterMap, fun root ts => ?_⟩
  rw [extract_transcript, buildTranscript_eq_filterMap]

theorem childFrags_eq_flatMap :
    ∀ cs : List Elem, childFrags cs = cs.flatMap (fun c => extract_text c :: optFrag c.tail) := by
  intro cs
  induction cs with
  | nil => rfl
  | cons c cs ih => rw [childFrags, List.flatMap_cons, ih]

/-- C6: `extract_text` returns the depth-first collection — the element's
own leading text, then for each child in document order the child's
recursively extracted text followed by the child's tail text — joined by
single spaces and stripped of surrounding whitespace. -/
theorem extract_text_depth_first (e : Elem) :
    extract_text e = pyStrip (String.intercalate " "
      (optFrag e.text ++ e.children.flatMap (fun c => extract_text c :: optFrag c.tail))) := by
  cases e with
  | mk tag attrib text tail children =>
      rw [extract_text, Elem.text, Elem.children, childFrags_eq_flatMap]

/-- C2: supplying both positional paths together with the timestamps
flag does NOT run single-file mode — the mode test (source line 149)
requires the flag to be absent, so the program falls through to batch
mode and ignores the two paths.  This contradicts the claim (and the
flag's own help text, which only promises timestamp inclusion). -/
theorem timestamps_flag_forces_batch_mode :
    selectMode (some "episode.ttml") (some "episode.txt") true = Mode.batch := by decide

/-- C10: every invocation — single-file mode included — creates the
`./transcripts` directory when it does not exist, as the first effect,
before any mode selection or file processing; when it exists no
creation happens (the remaining trace is identical). -/
theorem transcripts_dir_created_first :
    ∀ (input_file output_file : Option String) (timestamps : Bool)
      (singleRead : Option (Option Elem)) (files : List BatchFile),
      (mainEffects input_file output_file timestamps false singleRead files).head?
          = some (Effect.mkdir "./transcripts") ∧
      Effect.mkdir "./transcripts" ::
          mainEffects input_file output_file timestamps true singleRead files
        = mainEffects input_file output_file timestamps false singleRead files := by
  intro i o ts sr fs
  constructor
  · simp [mainEffects]
  · simp [mainEffects]

theorem processBatch_length (ts : Bool) :
    ∀ (fs : List BatchFile) (counts : String → Nat),
      ((processBatch counts ts fs).1).length = fs.length := by
  intro fs
  induction fs with
  | nil => intro counts; rfl
  | cons f fs ih =>
      intro counts
      rw [processBatch]
      simp only [List.length_cons]
      rw [ih]

/-- C8: ill-formed XML (a parse failure) makes `extract_transcript`
print a diagnostic and return without writing any output file, and the
batch loop still yields one processed entry per located file — the
failure neither crashes (all functions are total) nor stops the batch. -/
theorem malformed_xml_is_skipped :
    (∀ ts : Bool, (extract_transcript none ts).errorMsg = some "XML parsing error" ∧
      (extract_transcript none ts).written = none) ∧
    (∀ (counts : String → Nat) (ts : Bool) (fs : List BatchFile),
      ((processBatch counts ts fs).1).length = fs.length) := by
  exact ⟨fun ts => ⟨rfl, rfl⟩, fun counts ts fs => processBatch_length ts fs counts⟩

/-- C7: for every non-negative seconds value, `format_timestamp`
renders `h:m:s` with `h = floor(seconds/3600)`,
`m = floor((seconds mod 3600)/60)`, `s = floor(seconds mod 60)`, each
zero-padded to width 2, the fractional part truncated into the integer
`s` field; `3661.9` (i.e. `mkRat 36619 10`) renders as `"01:01:01"`
(truncation, not rounding), and `h` is not capped: 100 hours render
with three digits. -/
theorem format_timestamp_matches_spec :
    (∀ q : ℚ, 0 ≤ q → format_timestamp q = formatTimestampSpec q) ∧
    format_timestamp (mkRat 36619 10) = "01:01:01" ∧
    (mkRat 36619 10 : ℚ) = 3661.9 ∧
    format_timestamp 360000 = "100:00:00" := by
  refine ⟨fun q hq => ?_, by decide, ?_, by decide⟩
  · rw [format_timestamp, formatTimestampSpec]
    simp only [pyFloorDiv_eq, pyMod_eq, pyInt_intCast]
    rw [pyInt_eq_floor (pyMod_sixty_nonneg q)]
  · rw [Rat.mkRat_eq_divInt, Rat.divInt_eq_div]
    norm_num

/-- Witness for C7 at `seconds = 90`. -/
theorem format_timestamp_matches_spec_witness :
    (0 : ℚ) ≤ 90 ∧ format_timestamp 90 = formatTimestampSpec 90 :=
  ⟨by decide, format_timestamp_matches_spec.1 90 (by decide)⟩

/-! ## Batch-loop lemmas -/

theorem processBatch_counts (ts : Bool) :
    ∀ (fs : List BatchFile) (counts : String → Nat) (id : String),
      (processBatch counts ts fs).2 id = counts id + (fs.filter (fun f => f.id = id)).length := by
  intro fs
  induction fs with
  | nil => intro counts id; simp [processBatch]
  | cons f fs ih =>
      intro counts id
      rw [processBatch]
      simp only [List.filter_cons]
      rw [ih]
      by_cases h : f.id = id
      · simp only [h, bump, if_pos rfl, decide_eq_true_eq, if_pos trivial]
        simp [h]
        omega
      · have h2 : ¬ (id = f.id) := fun hh => h hh.symm
        simp only [bump, if_neg h2]
        simp [h]

theorem processBatch_paths (ts : Bool) :
    ∀ (fs : List BatchFile) (counts : String → Nat) (n : Nat) (h : n < fs.length),
      ((processBatch counts ts fs).1)[n]?.map Prod.fst
        = some (outPathFor (fs.get ⟨n, h⟩).id
            (counts (fs.get ⟨n, h⟩).id
              + ((fs.take n).filter (fun f => f.id = (fs.get ⟨n, h⟩).id)).length)) := by
  intro fs
  induction fs with
  | nil => intro counts n h; exact absurd h (by simp)
  | cons f fs ih =>
      intro counts n h
      rw [processBatch]
      cases n with
      | zero =>
          cases hr : f.readResult <;> simp [hr]
      | succ n =>
          have hn : n < fs.length := Nat.lt_of_succ_lt_succ h
          have hg : (f :: fs).get ⟨n + 1, h⟩ = fs.get ⟨n, hn⟩ := rfl
          rw [hg]
          simp only [List.getElem?_cons_succ, List.take_succ_cons, List.filter_cons]
          rw [ih (bump counts f.id) n hn]
          by_cases hid : f.id = (fs.get ⟨n, hn⟩).id
          · have hb : bump counts f.id (fs.get ⟨n, hn⟩).id
                = counts (fs.get ⟨n, hn⟩).id + 1 := by
              simp only [bump]
              rw [if_pos hid.symm, hid]
            rw [hb, if_pos (decide_eq_true hid), List.length_cons]
            have harith : ∀ L : Nat, counts (fs.get ⟨n, hn⟩).id + 1 + L
                = counts (fs.get ⟨n, hn⟩).id + (L + 1) := fun L => by omega
            rw [harith]
          · have h2 : ¬ ((fs.get ⟨n, hn⟩).id = f.id) := fun hh => hid hh.symm
            have hb : bump counts f.id (fs.get ⟨n, hn⟩).id
                = counts (fs.get ⟨n, hn⟩).id := by
              simp only [bump]
              rw [if_neg h2]
            rw [hb, if_neg (fun hh => hid (of_decide_eq_true hh))]

/-- C9: the collision table is updated for every located file, in
discovery order, before the file is read: (1) after the loop the count
of an identifier equals the number of located files carrying it,
successful or not (and the same holds for every prefix, by applying the
statement to the prefix); (2) the output path assigned to the `n`-th
located file uses the number of earlier located files with the same
identifier as its suffix index, regardless of any read failures among
them. -/
theorem collision_table_invariant :
    (∀ (counts : String → Nat) (ts : Bool) (fs : List BatchFile) (id : String),
      (processBatch counts ts fs).2 id = counts id + (fs.filter (fun f => f.id = id)).length) ∧
    (∀ (ts : Bool) (fs : List BatchFile) (n : Nat) (h : n < fs.length),
      ((processBatch (fun _ => 0) ts fs).1)[n]?.map Prod.fst
        = some (outPathFor (fs.get ⟨n, h⟩).id
            (((fs.take n).filter (fun f => f.id = (fs.get ⟨n, h⟩).id)).length))) := by
  constructor
  · intro counts ts fs id
    exact processBatch_counts ts fs counts id
  · intro ts fs n h
    rw [processBatch_paths ts fs (fun _ => 0) n h]
    simp

/-- Witness for C9: two located files share the identifier `"ep"`; the
first one is unreadable, yet the second still receives the collision
suffix `-1`. -/
theorem collision_table_invariant_witness :
    ((processBatch (fun _ => 0) false [fileUnreadable, fileIllFormed]).1)[1]?.map Prod.fst
      = some "./transcripts/ep-1.txt" :=
  (collision_table_invariant.2 false [fileUnreadable, fileIllFormed] 1 (by decide)).trans
    (by decide)

/-! ## Structural-fallback behaviour (missing `body`/`div`, extra `div`s) -/

/-- C3 counterexample: the well-formed document `<tt/>` has no `body`
element, yet `extract_transcript` emits no diagnostic and writes an
(empty) output file — refuting "emits a diagnostic and produces no
output file". -/
theorem missing_body_no_diagnostic :
    (extract_transcript (some docNoBody) false).errorMsg = none ∧
    (extract_transcript (some docNoBody) false).written = some "" := by
  exact ⟨rfl, rfl⟩

/-- C3 (amended): when the parsed tree has no `body` element, or no
`div` child under any `body`, the paragraph query is empty and the
program emits no diagnostic and still writes an output file containing
the empty transcript; the batch continues either way. -/
theorem missing_structure_writes_empty (root : Elem) (ts : Bool)
    (h : (elemDescendants root).filter (fun e => e.tag = "body") = [] ∨
      ((elemDescendants root).filter (fun e => e.tag = "body")).flatMap
        (childrenTagged "div") = []) :
    extract_transcript (some root) ts = { errorMsg := none, written := some "" } := by
  have hp : findParagraphs root = [] := by
    rw [findParagraphs]
    rcases h with h | h
    · rw [h]
      rfl
    · rw [h]
      rfl
  rw [extract_transcript, hp]
  rfl

/-- Witness for C3 at the body-less document `<tt/>`. -/
theorem missing_structure_writes_empty_witness :
    extract_transcript (some docNoBody) true = { errorMsg := none, written := some "" } :=
  missing_structure_writes_empty docNoBody true (Or.inl rfl)

/-- C4 counterexample: in a document whose `body` holds two `div`s with
paragraph texts `"a"` and `"b"`, the transcript is `"a\n\nb"`, not
`"a"` — the second `div`'s paragraph contributes a line, refuting
"paragraphs only from the first `div`". -/
theorem second_div_contributes :
    (extract_transcript (some docTwoDivs) false).written = some "a\n\nb" ∧
    "a\n\nb" ≠ "a" := by
  constructor
  · decide
  · decide

/-- C4 (amended): the paragraph query selects the `p` children of EVERY
`div` child of every `body` descendant of the root (in document order),
not only those of the first `div`. -/
theorem every_div_contributes (root b d p : Elem)
    (hb : b ∈ elemDescendants root) (hbt : b.tag = "body")
    (hd : d ∈ b.children) (hdt : d.tag = "div")
    (hp : p ∈ d.children) (hpt : p.tag = "p") :
    p ∈ findParagraphs root := by
  rw [findParagraphs]
  refine List.mem_flatMap.mpr ⟨d, List.mem_flatMap.mpr ⟨b, ?_, ?_⟩, ?_⟩
  · exact List.mem_filter.mpr ⟨hb, decide_eq_true hbt⟩
  · rw [childrenTagged]
    exact List.mem_filter.mpr ⟨hd, decide_eq_true hdt⟩
  · rw [childrenTagged]
    exact List.mem_filter.mpr ⟨hp, decide_eq_true hpt⟩

/-- Witness for C4: the second `div`'s paragraph is among the selected
paragraphs of the two-div document. -/
theorem every_div_contributes_witness :
    paraSecond ∈ findParagraphs docTwoDivs :=
  every_div_contributes docTwoDivs bodyTwoDivs divSecond paraSecond
    (List.mem_cons_self _ _) rfl
    (by simp [bodyTwoDivs, Elem.children]) rfl
    (by simp [divSecond, Elem.children]) rfl

/-! ## Timecode-parsing facts: `float()` accepts no colon -/

theorem mem_takeWhile_pred {α : Type} {p : α → Bool} :
    ∀ {l : List α} {c : α}, c ∈ l.takeWhile p → p c = true := by
  intro l
  induction l with
  | nil => intro c h; cases h
  | cons x xs ih =>
      intro c h
      rw [List.takeWhile_cons] at h
      by_cases hx : p x = true
      · rw [if_pos hx] at h
        rcases List.mem_cons.mp h with rfl | h2
        · exact hx
        · exact ih h2
      · rw [if_neg hx] at h
        cases h

theorem mem_dropWhile_of_neg {α : Type} {p : α → Bool} :
    ∀ {l : List α} {c : α}, c ∈ l → p c = false → c ∈ l.dropWhile p := by
  intro l
  induction l with
  | nil => intro c h _; cases h
  | cons x xs ih =>
      intro c hc hpc
      rw [List.dropWhile_cons]
      by_cases hx : p x = true
      · rw [if_pos hx]
        rcases List.mem_cons.mp hc with rfl | h2
        · rw [hx] at hpc; cases hpc
        · exact ih h2 hpc
      · rw [if_neg hx]
        exact hc

theorem mem_pyStripChars {l : List Char} {c : Char} (hc : c ∈ l)
    (hns : isPySpace c = false) : c ∈ pyStripChars l := by
  rw [pyStripChars]
  exact List.mem_reverse.mpr (mem_dropWhile_of_neg
    (List.mem_reverse.mpr (mem_dropWhile_of_neg hc hns)) hns)

theorem isDigit_floatLitChar {c : Char} (h : c.isDigit = true) : floatLitChar c = true := by
  simp [floatLitChar, h]

theorem parseExpDigitRun_all {sign : Int} {ds : List Char} {e : Int}
    (hl : parseExpDigitRun sign ds = some e) : ds.all Char.isDigit = true := by
  rw [parseExpDigitRun] at hl
  by_cases hcnd : (!ds.isEmpty && ds.all Char.isDigit) = true
  · rw [Bool.and_eq_true] at hcnd
    exact hcnd.2
  · rw [if_neg hcnd] at hl
    cases hl

theorem parseExp_allowed :
    ∀ {l : List Char} {e : Int}, parseExp l = some e → ∀ c ∈ l, floatLitChar c = true := by
  intro l e hl c hc
  cases l with
  | nil => cases hc
  | cons x rest =>
      rw [parseExp] at hl
      by_cases hx : (x = 'e' || x = 'E') = true
      case neg =>
        rw [if_neg hx] at hl
        cases hl
      case pos =>
      rw [if_pos hx] at hl
      have hxok : floatLitChar x = true := by
        rw [Bool.or_eq_true] at hx
        rcases hx with h | h
        · have hv : x = 'e' := of_decide_eq_true h
          subst hv; decide
        · have hv : x = 'E' := of_decide_eq_true h
          subst hv; decide
      rcases List.mem_cons.mp hc with rfl | hc2
      · exact hxok
      by_cases hm : rest.head? = some '-'
      · rw [if_pos hm] at hl
        cases rest with
        | nil => exact Option.noConfusion hm
        | cons r rest2 =>
            rw [List.head?_cons] at hm
            have hr : r = '-' := Option.some.inj hm
            subst hr
            have hall := parseExpDigitRun_all hl
            rcases List.mem_cons.mp hc2 with rfl | hc3
            · decide
            · exact isDigit_floatLitChar (List.all_eq_true.mp hall c hc3)
      · rw [if_neg hm] at hl
        by_cases hp2 : rest.head? = some '+'
        · rw [if_pos hp2] at hl
          cases rest with
          | nil => exact Option.noConfusion hp2
          | cons r rest2 =>
              rw [List.head?_cons] at hp2
              have hr : r = '+' := Option.some.inj hp2
              subst hr
              have hall := parseExpDigitRun_all hl
              rcases List.mem_cons.mp hc2 with rfl | hc3
              · decide
              · exact isDigit_floatLitChar (List.all_eq_true.mp hall c hc3)
        · rw [if_neg hp2] at hl
          exact isDigit_floatLitChar (List.all_eq_true.mp (parseExpDigitRun_all hl) c hc2)

theorem parseMantissaExp_allowed :
    ∀ {l : List Char} {q : ℚ}, parseMantissaExp l = some q →
      ∀ c ∈ l, floatLitChar c = true := by
  intro l q hl c hc
  have hc2 : c ∈ l.takeWhile Char.isDigit ++ l.dropWhile Char.isDigit := by
    rw [List.takeWhile_append_dropWhile]
    exact hc
  simp only [parseMantissaExp] at hl
  rcases List.mem_append.mp hc2 with hin | hrest
  · exact isDigit_floatLitChar (mem_takeWhile_pred hin)
  · by_cases hdot : (l.dropWhile Char.isDigit).head? = some '.'
    · rw [if_pos hdot] at hl
      rcases hdw : l.dropWhile Char.isDigit with _ | ⟨r, rest2⟩
      · rw [hdw] at hrest
        cases hrest
      · rw [hdw] at hdot hrest hl
        rw [List.head?_cons] at hdot
        have hr : r = '.' := Option.some.inj hdot
        subst hr
        simp only [List.tail_cons] at hl
        by_cases hcnd : ((l.takeWhile Char.isDigit).isEmpty
            && (rest2.takeWhile Char.isDigit).isEmpty) = true
        · rw [if_pos hcnd] at hl
          cases hl
        · rw [if_neg hcnd] at hl
          rcases List.mem_cons.mp hrest with rfl | hc3
          · decide
          · have hc4 : c ∈ rest2.takeWhile Char.isDigit ++ rest2.dropWhile Char.isDigit := by
              rw [List.takeWhile_append_dropWhile]
              exact hc3
            rcases List.mem_append.mp hc4 with hin2 | hrest2
            · exact isDigit_floatLitChar (mem_takeWhile_pred hin2)
            · cases hpe : parseExp (rest2.dropWhile Char.isDigit) with
              | none =>
                  rw [hpe] at hl
                  cases hl
              | some e2 => exact parseExp_allowed hpe c hrest2
    · rw [if_neg hdot] at hl
      by_cases hcnd : (l.takeWhile Char.isDigit).isEmpty = true
      · rw [if_pos hcnd] at hl
        cases hl
      · rw [if_neg hcnd] at hl
        cases hpe : parseExp (l.dropWhile Char.isDigit) with
        | none =>
            rw [hpe] at hl
            cases hl
        | some e2 => exact parseExp_allowed hpe c hrest

theorem pyFloat_some_no_colon {s : String} {q : ℚ} (h : pyFloat s = some q) :
    ':' ∉ s.data := by
  intro hc
  have hcs : ':' ∈ pyStripChars s.data := mem_pyStripChars hc (by decide)
  simp only [pyFloat] at h
  by_cases hp : (pyStripChars s.data).head? = some '+'
  · rw [if_pos hp] at h
    rcases hdw : pyStripChars s.data with _ | ⟨r, rest⟩
    · rw [hdw] at hcs
      cases hcs
    · rw [hdw] at hp hcs h
      rw [List.head?_cons] at hp
      have hr : r = '+' := Option.some.inj hp
      subst hr
      simp only [List.tail_cons] at h
      rcases List.mem_cons.mp hcs with habs | hcs2
      · exact absurd habs (by decide)
      · exact absurd (parseMantissaExp_allowed h ':' hcs2) (by decide)
  · rw [if_neg hp] at h
    by_cases hm : (pyStripChars s.data).head? = some '-'
    · rw [if_pos hm] at h
      rcases hdw : pyStripChars s.data with _ | ⟨r, rest⟩
      · rw [hdw] at hcs
        cases hcs
      · rw [hdw] at hm hcs h
        rw [List.head?_cons] at hm
        have hr : r = '-' := Option.some.inj hm
        subst hr
        simp only [List.tail_cons] at h
        rcases List.mem_cons.mp hcs with habs | hcs2
        · exact absurd habs (by decide)
        · rcases Option.map_eq_some'.mp h with ⟨q2, hq2, _⟩
          exact absurd (parseMantissaExp_allowed hq2 ':' hcs2) (by decide)
    · rw [if_neg hm] at h
      exact absurd (parseMantissaExp_allowed h ':' hcs) (by decide)


/-- C1 counterexample: the claim predicts
`parseTimecode("40:15.8") = 2415.8`, but the program parses the `begin`
timecode with a bare `float()` call and no colon splitting, so the
two-part form fails and the fallback `0` is returned instead. -/
theorem parseTimecode_colon_counterexample :
    parseTimecode "40:15.8" = 0 ∧ (0 : ℚ) ≠ 2415.8 := by
  constructor
  · decide
  · norm_num

/-- C1 (amended): the program never splits a timecode on `:` — the
whole string is parsed as one plain number, every string containing a
colon (and any other unparseable string) yields `0`, and plain numbers
parse to their value; so `parseTimecode("1:40:14.700") = 0`,
`parseTimecode("40:15.8") = 0`, `parseTimecode("bogus") = 0`, while
`parseTimecode("14.7") = 14.7` (i.e. `mkRat 147 10`). -/
theorem parseTimecode_no_colon_split :
    (∀ s : String, ':' ∈ s.data → parseTimecode s = 0) ∧
    parseTimecode "1:40:14.700" = 0 ∧ parseTimecode "40:15.8" = 0 ∧
    parseTimecode "bogus" = 0 ∧ parseTimecode "14.7" = mkRat 147 10 := by
  refine ⟨fun s hs => ?_, by decide, by decide, by decide, by decide⟩
  rw [parseTimecode]
  cases hp : pyFloat s with
  | none => rfl
  | some q => exact absurd hs (pyFloat_some_no_colon hp)

/-- Witness for C1 at the colon-containing string `"1:2"`. -/
theorem parseTimecode_no_colon_split_witness :
    ':' ∈ ("1:2").data ∧ parseTimecode "1:2" = 0 :=
  ⟨by decide, parseTimecode_no_colon_split.1 "1:2" (by decide)⟩
